import Mathlib

/-!
Shallow embedding of the decode/operand/execute engine of the gb repository.

Source files embedded:
- src/slots.rs      : operand model (`Slot`, register enums, immediate parsers)
- src/decoder.rs    : `Memory`, cursor-based `decode` used by the emulator
- src/main.rs       : iterator-based `decode` used by the disassembler
- src/bin/emulator.rs : register file, `fetch_value` / `set_value`, `execute`

Machine integers are modelled as `Nat` (with explicit `% 2 ^ w` at the points
where the Rust code truncates or wraps) and `i8`/`i32` values as `Int`.
Rust `Result` becomes `Except`; a Rust `todo!()` (a panic) is modelled as an
explicit `panicked` outcome.
-/

namespace GB

/-! ## slots.rs : registers and operand slots -/

inductive AddrReg
  | BC
  | DE
  | HL
  | C
deriving DecidableEq

/-- Register16 from slots.rs (the unused FG variant is present in the source). -/
inductive Register16
  | AF
  | BC
  | DE
  | FG
  | HL
  | SP
deriving DecidableEq

/-- Register8 from slots.rs (the unused G variant is present in the source). -/
inductive Register8
  | A
  | B
  | C
  | D
  | E
  | F
  | G
  | L
  | H
deriving DecidableEq

/-- Operand slot, mirroring `enum Slot` of slots.rs. Immediate payloads are
`Nat` standing for `u8` / `u16`. -/
inductive Slot
  | AddrRegister (r : AddrReg)
  | Register16 (r : GB.Register16)
  | Register8 (r : GB.Register8)
  | Addr8 (v : Nat)
  | Addr16 (v : Nat)
  | Data8 (v : Nat)
  | Data16 (v : Nat)
deriving DecidableEq

def Slot.r8 (r : GB.Register8) : Slot := Slot.Register8 r

def Slot.r16 (r : GB.Register16) : Slot := Slot.Register16 r

def Slot.addr (r : AddrReg) : Slot := Slot.AddrRegister r

/-- DecodeError of main.rs (used by slots.rs through `crate::DecodeError`). -/
inductive DecodeError
  | EndOfStream
  | UnknownOpcode (b : Nat)
  | UnknownExtendedOpcode (b : Nat)
deriving DecidableEq

/-- slots.rs `decode_u8`: one `next()` on the byte iterator, modelled on a list. -/
def decode_u8 (data : List Nat) : Except DecodeError (Nat × List Nat) :=
  match data with
  | [] => .error .EndOfStream
  | b :: rest => .ok (b, rest)

/-- slots.rs `decode_u16`: two `next()` calls then `u16::from_le_bytes`;
the first byte read is the least significant one. -/
def decode_u16 (data : List Nat) : Except DecodeError (Nat × List Nat) :=
  match data with
  | b0 :: b1 :: rest => .ok (b0 + 256 * b1, rest)
  | _ => .error .EndOfStream

def Slot.parse_a16 (data : List Nat) : Except DecodeError (Slot × List Nat) :=
  (decode_u16 data).map (fun p => (Slot.Addr16 p.1, p.2))

def Slot.parse_a8 (data : List Nat) : Except DecodeError (Slot × List Nat) :=
  (decode_u8 data).map (fun p => (Slot.Addr8 p.1, p.2))

def Slot.parse_d16 (data : List Nat) : Except DecodeError (Slot × List Nat) :=
  (decode_u16 data).map (fun p => (Slot.Data16 p.1, p.2))

def Slot.parse_d8 (data : List Nat) : Except DecodeError (Slot × List Nat) :=
  (decode_u8 data).map (fun p => (Slot.Data8 p.1, p.2))

/-! ## decoder.rs : Memory -/

inductive MemoryError
  | DataTooLarge
deriving DecidableEq

/-- The flat 64 KiB memory image of decoder.rs, as a function from addresses
to byte values. Rust indexes it with a `u16`, so only addresses below
65536 are ever used. -/
structure Memory where
  data : Nat → Nat

/-- `Memory::from_raw`: reject a buffer with `len > 0xFFFF`, otherwise copy it
to the low addresses of a zero-initialized image. -/
def Memory.from_raw (bytes : List Nat) : Except MemoryError Memory :=
  if bytes.length > 0xFFFF then .error .DataTooLarge
  else .ok ⟨fun a => if a < bytes.length then bytes.getD a 0 else 0⟩

def Memory.get (m : Memory) (pc : Nat) : Nat := m.data pc

def Memory.set (m : Memory) (pc : Nat) (value : Nat) : Memory :=
  ⟨fun x => if x = pc then value else m.data x⟩

/-- Rust `as i8` reinterpretation of a byte as a signed 8-bit value. -/
def toI8 (b : Nat) : Int :=
  if b % 256 < 128 then (b % 256 : Nat) else (b % 256 : Nat) - 256

/-- The 8-entry operand table used for the 0x40..0x80 load block, identical in
decoder.rs and main.rs. The source indexes an 8-element array with values
that are always below 8; the catch-all row is unreachable. -/
def mapping : Nat → Slot
  | 0 => Slot.r8 .B
  | 1 => Slot.r8 .C
  | 2 => Slot.r8 .D
  | 3 => Slot.r8 .E
  | 4 => Slot.r8 .H
  | 5 => Slot.r8 .L
  | 6 => Slot.AddrRegister .HL
  | 7 => Slot.r8 .A
  | _ => Slot.r8 .A

namespace Decoder

/-- Opcode of decoder.rs (the emulator's instruction set). -/
inductive Opcode
  | Nop
  | Halt
  | Ret
  | Ld (dst : Slot) (src : Slot)
  | Call (s : Slot)
  | Inc (s : Slot)
  | Cp (dst : Slot) (src : Slot)
  | Dec (s : Slot)
  | Sub (s : Slot)
  | LdDec (r : Register8)
  | LdInc (r : Register8)
  | RotLeft (r : Register8)
  | Push (r : Register16)
  | Pop (r : Register16)
  | Xor (r : Register8)
  | ComplBit (n : Nat) (r : Register8)
  | Jump (d : Int)
  | JumpRZMemOffset (d : Int)
  | JumpRNZMemOffset (d : Int)
deriving DecidableEq

/-- DecodeError of decoder.rs: the memory image is total, so this decoder has
no end-of-stream failure. -/
inductive DecodeError
  | UnknownOpcode (b : Nat)
  | UnknownExtendedOpcode (b : Nat)
deriving DecidableEq

/-- decoder.rs `fetch`: read the byte at the cursor and advance it by one. -/
def fetch (data : Memory) (pc : Nat) : Nat × Nat := (data.get pc, pc + 1)

/-- Modelled from the spec: decoder.rs calls `Slot::parse_d16(data, pc)` with a
`&Memory` and a `&mut u16` cursor, but src/slots.rs only contains the
iterator-based parser; the Memory-based overload is missing from src/.
Per the spec it consumes 2 bytes little-endian from the cursor. -/
def parse_d16 (data : Memory) (pc : Nat) : Slot × Nat :=
  (Slot.Data16 (data.get pc + 256 * data.get (pc + 1)), pc + 2)

/-- Modelled from the spec: Memory-based `parse_a16` (missing from src/),
consuming 2 bytes little-endian. -/
def parse_a16 (data : Memory) (pc : Nat) : Slot × Nat :=
  (Slot.Addr16 (data.get pc + 256 * data.get (pc + 1)), pc + 2)

/-- Modelled from the spec: Memory-based `parse_d8` (missing from src/),
consuming 1 byte. -/
def parse_d8 (data : Memory) (pc : Nat) : Slot × Nat :=
  (Slot.Data8 (data.get pc), pc + 1)

/-- Modelled from the spec: Memory-based `parse_a8` (missing from src/),
consuming 1 byte. -/
def parse_a8 (data : Memory) (pc : Nat) : Slot × Nat :=
  (Slot.Addr8 (data.get pc), pc + 1)

/-- decoder.rs `decode_extended`: flat second-byte table of the 0xCB space. -/
def decode_extended (data : Nat) : Except DecodeError Opcode :=
  if data = 0x11 then .ok (.RotLeft .C)
  else if data = 0x7c then .ok (.ComplBit 7 .H)
  else if data = 0x4f then .ok (.ComplBit 1 .A)
  else .error (.UnknownExtendedOpcode data)

/-- decoder.rs `decode`. The returned `Nat` is the final cursor value. Note
that the 0xCB branch of the source reads the extension byte with
`data.get(*pc)` without incrementing `pc` again, so the cursor ends up past
the prefix byte only; this source behaviour is preserved here. -/
def decode (data : Memory) (pc : Nat) : Except DecodeError (Opcode × Nat) :=
  let opcode := data.get pc
  let pc1 := pc + 1
  if opcode = 0xcb then
    match decode_extended (data.get pc1) with
    | .ok op => .ok (op, pc1)
    | .error e => .error e
  else if 0x40 ≤ opcode ∧ opcode < 0x80 then
    if opcode = 0x76 then .ok (.Halt, pc1)
    else
      .ok (.Ld (mapping ((opcode - 0x40) >>> 3)) (mapping ((opcode - 0x40) &&& 0x7)), pc1)
  else if opcode = 0x00 then .ok (.Nop, pc1)
  else if opcode = 0x01 then
    let s := parse_d16 data pc1
    .ok (.Ld (Slot.r16 .BC) s.1, s.2)
  else if opcode = 0x02 then .ok (.Ld (Slot.addr .BC) (Slot.r8 .A), pc1)
  else if opcode = 0x03 then .ok (.Inc (Slot.r16 .BC), pc1)
  else if opcode = 0x04 then .ok (.Inc (Slot.r8 .B), pc1)
  else if opcode = 0x05 then .ok (.Dec (Slot.r8 .B), pc1)
  else if opcode = 0x06 then
    let s := parse_d8 data pc1
    .ok (.Ld (Slot.r8 .B) s.1, s.2)
  else if opcode = 0x0c then .ok (.Inc (Slot.r8 .C), pc1)
  else if opcode = 0x0d then .ok (.Dec (Slot.r8 .C), pc1)
  else if opcode = 0x0e then
    let s := parse_d8 data pc1
    .ok (.Ld (Slot.r8 .C) s.1, s.2)
  else if opcode = 0x11 then
    let s := parse_d16 data pc1
    .ok (.Ld (Slot.r16 .DE) s.1, s.2)
  else if opcode = 0x13 then .ok (.Inc (Slot.r16 .DE), pc1)
  else if opcode = 0x14 then .ok (.Inc (Slot.r8 .D), pc1)
  else if opcode = 0x15 then .ok (.Dec (Slot.r8 .D), pc1)
  else if opcode = 0x16 then
    let s := parse_d8 data pc1
    .ok (.Ld (Slot.r8 .D) s.1, s.2)
  else if opcode = 0x17 then .ok (.RotLeft .A, pc1)
  else if opcode = 0x18 then
    let f := fetch data pc1
    .ok (.Jump (toI8 f.1), f.2)
  else if opcode = 0x1a then .ok (.Ld (Slot.r8 .A) (Slot.addr .DE), pc1)
  else if opcode = 0x1b then .ok (.Dec (Slot.r16 .DE), pc1)
  else if opcode = 0x1c then .ok (.Inc (Slot.r8 .E), pc1)
  else if opcode = 0x1d then .ok (.Dec (Slot.r8 .E), pc1)
  else if opcode = 0x1e then
    let s := parse_d8 data pc1
    .ok (.Ld (Slot.r8 .E) s.1, s.2)
  else if opcode = 0x20 then
    let f := fetch data pc1
    .ok (.JumpRNZMemOffset (toI8 f.1), f.2)
  else if opcode = 0x21 then
    let s := parse_d16 data pc1
    .ok (.Ld (Slot.r16 .HL) s.1, s.2)
  else if opcode = 0x22 then .ok (.LdInc .A, pc1)
  else if opcode = 0x23 then .ok (.Inc (Slot.r16 .HL), pc1)
  else if opcode = 0x24 then .ok (.Inc (Slot.r8 .H), pc1)
  else if opcode = 0x25 then .ok (.Dec (Slot.r8 .H), pc1)
  else if opcode = 0x28 then
    let f := fetch data pc1
    .ok (.JumpRZMemOffset (toI8 f.1), f.2)
  else if opcode = 0x2e then
    let s := parse_d8 data pc1
    .ok (.Ld (Slot.r8 .L) s.1, s.2)
  else if opcode = 0x31 then
    let s := parse_d16 data pc1
    .ok (.Ld (Slot.r16 .SP) s.1, s.2)
  else if opcode = 0x32 then .ok (.LdDec .A, pc1)
  else if opcode = 0x34 then .ok (.Inc (Slot.AddrRegister .HL), pc1)
  else if opcode = 0x35 then .ok (.Dec (Slot.AddrRegister .HL), pc1)
  else if opcode = 0x3d then .ok (.Dec (Slot.r8 .A), pc1)
  else if opcode = 0x3e then
    let s := parse_d8 data pc1
    .ok (.Ld (Slot.r8 .A) s.1, s.2)
  else if opcode = 0x90 then .ok (.Sub (Slot.r8 .B), pc1)
  else if opcode = 0x91 then .ok (.Sub (Slot.r8 .C), pc1)
  else if opcode = 0x92 then .ok (.Sub (Slot.r8 .D), pc1)
  else if opcode = 0x93 then .ok (.Sub (Slot.r8 .E), pc1)
  else if opcode = 0x94 then .ok (.Sub (Slot.r8 .H), pc1)
  else if opcode = 0x95 then .ok (.Sub (Slot.r8 .L), pc1)
  else if opcode = 0x96 then .ok (.Sub (Slot.AddrRegister .HL), pc1)
  else if opcode = 0x97 then .ok (.Sub (Slot.r8 .A), pc1)
  else if opcode = 0xaf then .ok (.Xor .A, pc1)
  else if opcode = 0xc1 then .ok (.Pop .BC, pc1)
  else if opcode = 0xc5 then .ok (.Push .BC, pc1)
  else if opcode = 0xc9 then .ok (.Ret, pc1)
  else if opcode = 0xcd then
    let s := parse_d16 data pc1
    .ok (.Call s.1, s.2)
  else if opcode = 0xe0 then
    let s := parse_a8 data pc1
    .ok (.Ld s.1 (Slot.r8 .A), s.2)
  else if opcode = 0xe2 then .ok (.Ld (Slot.addr .C) (Slot.r8 .A), pc1)
  else if opcode = 0xea then
    let s := parse_a16 data pc1
    .ok (.Ld s.1 (Slot.r8 .A), s.2)
  else if opcode = 0xf0 then
    let s := parse_a8 data pc1
    .ok (.Ld (Slot.r8 .A) s.1, s.2)
  else if opcode = 0xf1 then .ok (.Pop .AF, pc1)
  else if opcode = 0xfe then
    let s := parse_d8 data pc1
    .ok (.Cp (Slot.r8 .A) s.1, s.2)
  else .error (.UnknownOpcode opcode)

end Decoder

namespace Main

/-- Opcode of main.rs (the disassembler's instruction set); it differs from
decoder.rs in the post-increment/decrement load and Xor variants. -/
inductive Opcode
  | Nop
  | Halt
  | Ret
  | Ld (dst : Slot) (src : Slot)
  | Call (s : Slot)
  | Inc (s : Slot)
  | Cp (dst : Slot) (src : Slot)
  | Dec (s : Slot)
  | Sub (s : Slot)
  | LdToMemDec (dst : Register16) (src : Register8)
  | LdToMemInc (dst : Register16) (src : Register8)
  | RotLeft (r : Register8)
  | Push (r : Register16)
  | Pop (r : Register16)
  | Xor (a : Register8) (b : Register8)
  | ComplBit (n : Nat) (r : Register8)
  | Jump (d : Int)
  | JumpRZMemOffset (d : Int)
  | JumpRNZMemOffset (d : Int)
deriving DecidableEq

/-- main.rs `decode_extended` (same table as decoder.rs). -/
def decode_extended (data : Nat) : Except DecodeError Opcode :=
  if data = 0x11 then .ok (.RotLeft .C)
  else if data = 0x7c then .ok (.ComplBit 7 .H)
  else if data = 0x4f then .ok (.ComplBit 1 .A)
  else .error (.UnknownExtendedOpcode data)

/-- main.rs `decode` over a byte iterator, modelled as a list; the second
component of a success is the unconsumed remainder of the stream. -/
def decode (data : List Nat) : Except DecodeError (Opcode × List Nat) :=
  match data with
  | [] => .error .EndOfStream
  | opcode :: rest =>
    if opcode = 0xcb then
      match rest with
      | [] => .error .EndOfStream
      | b2 :: rest2 =>
        match decode_extended b2 with
        | .ok op => .ok (op, rest2)
        | .error e => .error e
    else if 0x40 ≤ opcode ∧ opcode < 0x80 then
      if opcode = 0x76 then .ok (.Halt, rest)
      else
        .ok (.Ld (mapping ((opcode - 0x40) >>> 3)) (mapping ((opcode - 0x40) &&& 0x7)), rest)
    else if opcode = 0x00 then .ok (.Nop, rest)
    else if opcode = 0x01 then
      (Slot.parse_d16 rest).map (fun s => (.Ld (Slot.r16 .BC) s.1, s.2))
    else if opcode = 0x02 then .ok (.Ld (Slot.addr .BC) (Slot.r8 .A), rest)
    else if opcode = 0x03 then .ok (.Inc (Slot.r16 .BC), rest)
    else if opcode = 0x04 then .ok (.Inc (Slot.r8 .B), rest)
    else if opcode = 0x05 then .ok (.Dec (Slot.r8 .B), rest)
    else if opcode = 0x06 then
      (Slot.parse_d8 rest).map (fun s => (.Ld (Slot.r8 .B) s.1, s.2))
    else if opcode = 0x0c then .ok (.Inc (Slot.r8 .C), rest)
    else if opcode = 0x0d then .ok (.Dec (Slot.r8 .C), rest)
    else if opcode = 0x0e then
      (Slot.parse_d8 rest).map (fun s => (.Ld (Slot.r8 .C) s.1, s.2))
    else if opcode = 0x11 then
      (Slot.parse_d16 rest).map (fun s => (.Ld (Slot.r16 .DE) s.1, s.2))
    else if opcode = 0x13 then .ok (.Inc (Slot.r16 .DE), rest)
    else if opcode = 0x14 then .ok (.Inc (Slot.r8 .D), rest)
    else if opcode = 0x15 then .ok (.Dec (Slot.r8 .D), rest)
    else if opcode = 0x16 then
      (Slot.parse_d8 rest).map (fun s => (.Ld (Slot.r8 .D) s.1, s.2))
    else if opcode = 0x17 then .ok (.RotLeft .A, rest)
    else if opcode = 0x18 then
      match rest with
      | [] => .error .EndOfStream
      | b :: r2 => .ok (.Jump (toI8 b), r2)
    else if opcode = 0x1a then .ok (.Ld (Slot.r8 .A) (Slot.addr .DE), rest)
    else if opcode = 0x1b then .ok (.Dec (Slot.r16 .DE), rest)
    else if opcode = 0x1c then .ok (.Inc (Slot.r8 .E), rest)
    else if opcode = 0x1d then .ok (.Dec (Slot.r8 .E), rest)
    else if opcode = 0x1e then
      (Slot.parse_d8 rest).map (fun s => (.Ld (Slot.r8 .E) s.1, s.2))
    else if opcode = 0x20 then
      match rest with
      | [] => .error .EndOfStream
      | b :: r2 => .ok (.JumpRNZMemOffset (toI8 b), r2)
    else if opcode = 0x21 then
      (Slot.parse_d16 rest).map (fun s => (.Ld (Slot.r16 .HL) s.1, s.2))
    else if opcode = 0x22 then .ok (.LdToMemInc .HL .A, rest)
    else if opcode = 0x23 then .ok (.Inc (Slot.r16 .HL), rest)
    else if opcode = 0x24 then .ok (.Inc (Slot.r8 .H), rest)
    else if opcode = 0x25 then .ok (.Dec (Slot.r8 .H), rest)
    else if opcode = 0x28 then
      match rest with
      | [] => .error .EndOfStream
      | b :: r2 => .ok (.JumpRZMemOffset (toI8 b), r2)
    else if opcode = 0x2e then
      (Slot.parse_d8 rest).map (fun s => (.Ld (Slot.r8 .L) s.1, s.2))
    else if opcode = 0x31 then
      (Slot.parse_d16 rest).map (fun s => (.Ld (Slot.r16 .SP) s.1, s.2))
    else if opcode = 0x32 then .ok (.LdToMemDec .HL .A, rest)
    else if opcode = 0x34 then .ok (.Inc (Slot.AddrRegister .HL), rest)
    else if opcode = 0x35 then .ok (.Dec (Slot.AddrRegister .HL), rest)
    else if opcode = 0x3d then .ok (.Dec (Slot.r8 .A), rest)
    else if opcode = 0x3e then
      (Slot.parse_d8 rest).map (fun s => (.Ld (Slot.r8 .A) s.1, s.2))
    else if opcode = 0x90 then .ok (.Sub (Slot.r8 .B), rest)
    else if opcode = 0x91 then .ok (.Sub (Slot.r8 .C), rest)
    else if opcode = 0x92 then .ok (.Sub (Slot.r8 .D), rest)
    else if opcode = 0x93 then .ok (.Sub (Slot.r8 .E), rest)
    else if opcode = 0x94 then .ok (.Sub (Slot.r8 .H), rest)
    else if opcode = 0x95 then .ok (.Sub (Slot.r8 .L), rest)
    else if opcode = 0x96 then .ok (.Sub (Slot.AddrRegister .HL), rest)
    else if opcode = 0x97 then .ok (.Sub (Slot.r8 .A), rest)
    else if opcode = 0xaf then .ok (.Xor .A .A, rest)
    else if opcode = 0xc1 then .ok (.Pop .BC, rest)
    else if opcode = 0xc5 then .ok (.Push .BC, rest)
    else if opcode = 0xc9 then .ok (.Ret, rest)
    else if opcode = 0xcd then
      (Slot.parse_d16 rest).map (fun s => (.Call s.1, s.2))
    else if opcode = 0xe0 then
      (Slot.parse_a8 rest).map (fun s => (.Ld s.1 (Slot.r8 .A), s.2))
    else if opcode = 0xe2 then .ok (.Ld (Slot.addr .C) (Slot.r8 .A), rest)
    else if opcode = 0xea then
      (Slot.parse_a16 rest).map (fun s => (.Ld s.1 (Slot.r8 .A), s.2))
    else if opcode = 0xf0 then
      (Slot.parse_a8 rest).map (fun s => (.Ld (Slot.r8 .A) s.1, s.2))
    else if opcode = 0xf1 then .ok (.Pop .AF, rest)
    else if opcode = 0xfe then
      (Slot.parse_d8 rest).map (fun s => (.Cp (Slot.r8 .A) s.1, s.2))
    else .error (.UnknownOpcode opcode)

end Main

namespace Emulator

/-! ## src/bin/emulator.rs : register file and executor -/

/-- The register file local to emulator.rs. All byte registers are `u8`
(modelled as `Nat`, kept below 256 by the well-formedness predicate) and
`pc`, `sp` are `u16`. -/
structure Registers where
  a : Nat
  b : Nat
  c : Nat
  d : Nat
  e : Nat
  h : Nat
  l : Nat
  f : Nat
  pc : Nat
  sp : Nat
deriving DecidableEq

/-- Well-formedness: every field holds a value of its machine width. In Rust
this is enforced by the `u8` / `u16` field types. -/
def Registers.Wf (r : Registers) : Prop :=
  r.a < 256 ∧ r.b < 256 ∧ r.c < 256 ∧ r.d < 256 ∧ r.e < 256 ∧
  r.h < 256 ∧ r.l < 256 ∧ r.f < 256 ∧ r.pc < 65536 ∧ r.sp < 65536

instance (r : Registers) : Decidable r.Wf := by
  unfold Registers.Wf
  infer_instance

/-- `Registers::flag_zero`: `(f & (1 << 7)) != 0`. -/
def Registers.flag_zero (r : Registers) : Bool := (r.f &&& (1 <<< 7)) != 0

/-- `Registers::flag_zero_set`: set or clear bit 7 of F, leaving the other
bits alone (`!(1u8 << 7) = 0x7F`). -/
def Registers.flag_zero_set (r : Registers) (value : Bool) : Registers :=
  if value then { r with f := r.f ||| (1 <<< 7) } else { r with f := r.f &&& 0x7F }

def Registers.af (r : Registers) : Nat := (r.a <<< 8) ||| r.f

def Registers.bc (r : Registers) : Nat := (r.b <<< 8) ||| r.c

def Registers.de (r : Registers) : Nat := (r.d <<< 8) ||| r.e

def Registers.hl (r : Registers) : Nat := (r.h <<< 8) ||| r.l

/-- `Registers::set_hl`: `h = (val >> 8) as u8; l = (val & 0xFF) as u8`. -/
def Registers.set_hl (r : Registers) (val : Nat) : Registers :=
  { r with h := (val >>> 8) % 256, l := val &&& 0xFF }

/-- The typed failures raised by `bail!` in emulator.rs, by call site. -/
inductive ExecError
  | LdFromF
  | LdFromAF
  | LdToF
  | LdToAF
  | SetValueF
  | SetValueAF
  | UnknownOpcode (code : Decoder.Opcode)
deriving DecidableEq

/-- Result of one executor step: normal return, a `bail!` error, or a
`todo!()` panic. -/
inductive Outcome
  | ok
  | err (e : ExecError)
  | panicked
deriving DecidableEq

/-- emulator.rs `fetch_register8`. The source match has no arm for the dead
`G` variant of slots.rs (it would not compile against it); `G` is mapped to 0
here and is unreachable from any decoded program. -/
def fetch_register8 (register : Register8) (r : Registers) : Nat :=
  match register with
  | .A => r.a
  | .B => r.b
  | .C => r.c
  | .D => r.d
  | .E => r.e
  | .H => r.h
  | .L => r.l
  | .F => r.f
  | .G => 0

/-- emulator.rs `fetch_register16`. As with `G`, the dead `FG` variant has no
arm in the source match and is mapped to 0 here. -/
def fetch_register16 (register : Register16) (r : Registers) : Nat :=
  match register with
  | .AF => r.af
  | .BC => r.bc
  | .DE => r.de
  | .HL => r.hl
  | .SP => r.sp
  | .FG => 0

/-- emulator.rs `fetch_value`, widening every operand to `u16`. `none` stands
for the `todo!()` panics of the source (indirect and absolute-address reads).
Note the `Addr8` arm: the source computes `(index + 0xFF) as u16` where
`index` is a `u8`, i.e. a wrapping 8-bit addition of 0xFF, not
`0xFF00 + index`. -/
def fetch_value (slot : Slot) (r : Registers) (m : Memory) : Option Nat :=
  match slot with
  | .Register8 register => some (fetch_register8 register r)
  | .AddrRegister _ => none
  | .Register16 register => some (fetch_register16 register r)
  | .Addr8 index => some (m.get ((index + 0xFF) % 256))
  | .Addr16 _ => none
  | .Data8 value => some value
  | .Data16 value => some value

/-- emulator.rs `set_value`: write a 16-bit value into a slot, truncating to
the natural width of the destination (`as u8` is `% 256`). The `todo!()`
arms (Addr16, Data8, Data16 destinations) are the `panicked` outcome, as are
the two match arms missing from the source (`G`, `FG`). -/
def set_value (slot : Slot) (r : Registers) (m : Memory) (value : Nat) :
    Registers × Memory × Outcome :=
  match slot with
  | .Register8 register =>
    match register with
    | .A => ({ r with a := value % 256 }, m, .ok)
    | .B => ({ r with b := value % 256 }, m, .ok)
    | .C => ({ r with c := value % 256 }, m, .ok)
    | .D => ({ r with d := value % 256 }, m, .ok)
    | .E => ({ r with e := value % 256 }, m, .ok)
    | .H => ({ r with h := value % 256 }, m, .ok)
    | .L => ({ r with l := value % 256 }, m, .ok)
    | .F => (r, m, .err .SetValueF)
    | .G => (r, m, .panicked)
  | .AddrRegister addr_register =>
    match addr_register with
    | .BC => (r, m.set r.bc (value % 256), .ok)
    | .DE => (r, m.set r.de (value % 256), .ok)
    | .HL => (r, m.set r.hl (value % 256), .ok)
    | .C => (r, m.set (r.c + 0xFF00) (value % 256), .ok)
  | .Register16 register =>
    match register with
    | .AF => (r, m, .err .SetValueAF)
    | .BC => ({ r with b := (value >>> 8) % 256, c := value % 256 }, m, .ok)
    | .DE => ({ r with d := (value >>> 8) % 256, e := value % 256 }, m, .ok)
    | .HL => ({ r with h := (value >>> 8) % 256, l := value % 256 }, m, .ok)
    | .SP => ({ r with sp := value }, m, .ok)
    | .FG => (r, m, .panicked)
  | .Addr8 index => (r, m.set (0xff00 + index) (value % 256), .ok)
  | .Addr16 _ => (r, m, .panicked)
  | .Data8 _ => (r, m, .panicked)
  | .Data16 _ => (r, m, .panicked)

/-- emulator.rs `execute`: apply one decoded instruction to the register file
and memory. The clock counter of the source is not modelled (no claim
mentions it). u16 wrap-around arithmetic on HL and PC is `% 65536`. -/
def execute (code : Decoder.Opcode) (r : Registers) (m : Memory) :
    Registers × Memory × Outcome :=
  match code with
  | .Xor src =>
    let value := fetch_register8 .A r ^^^ fetch_register8 src r
    set_value (.Register8 .A) r m value
  | .Ld dst src =>
    if src = Slot.Register8 .F then (r, m, .err .LdFromF)
    else if src = Slot.Register16 .AF then (r, m, .err .LdFromAF)
    else if dst = Slot.Register8 .F then (r, m, .err .LdToF)
    else if dst = Slot.Register16 .AF then (r, m, .err .LdToAF)
    else
      match fetch_value src r m with
      | none => (r, m, .panicked)
      | some value => set_value dst r m value
  | .LdDec src =>
    match fetch_value (.Register8 src) r m with
    | none => (r, m, .panicked)
    | some value =>
      let res := set_value (.AddrRegister .HL) r m value
      match res.2.2 with
      | .ok => (res.1.set_hl ((res.1.hl + 0xFFFF) % 0x10000), res.2.1, .ok)
      | o => (res.1, res.2.1, o)
  | .LdInc src =>
    match fetch_value (.Register8 src) r m with
    | none => (r, m, .panicked)
    | some value =>
      let res := set_value (.AddrRegister .HL) r m value
      match res.2.2 with
      | .ok => (res.1.set_hl ((res.1.hl + 1) % 0x10000), res.2.1, .ok)
      | o => (res.1, res.2.1, o)
  | .ComplBit bit_index register =>
    let value := fetch_register8 register r
    let bit_value := 1 &&& (value >>> bit_index)
    (r.flag_zero_set (bit_value == 0), m, .ok)
  | .JumpRNZMemOffset offset =>
    if !r.flag_zero then
      ({ r with pc := (((r.pc : Int) + offset) % 65536).toNat }, m, .ok)
    else (r, m, .ok)
  | other => (r, m, .err (.UnknownOpcode other))

end Emulator

/-! ## Fixtures and predicates used by the verification theorems -/

/-- Legality predicate for a decoded Load operand: it is none of the slots the
decoder never produces for a Load (F, AF and the dead G/FG variants). -/
def slotOk (s : Slot) : Prop :=
  s ≠ Slot.Register8 .F ∧ s ≠ Slot.Register16 .AF ∧
  s ≠ Slot.Register8 .G ∧ s ≠ Slot.Register16 .FG

instance (s : Slot) : Decidable (slotOk s) := by
  unfold slotOk
  infer_instance

/-- All-zero memory image. -/
def m0 : Memory := ⟨fun _ => 0⟩

/-- Default register file (all fields zero, as `Registers::default()`). -/
def r0 : Emulator.Registers := ⟨0, 0, 0, 0, 0, 0, 0, 0, 0, 0⟩

/-- Memory image beginning with the extended instruction `[0xCB, 0x7C]`. -/
def memCB7C : Memory := ⟨fun a => if a = 0 then 0xCB else if a = 1 then 0x7C else 0⟩

/-- Memory image beginning with the bytes `[0xCB, 0xFF]`. -/
def memCBFF : Memory := ⟨fun a => if a = 0 then 0xCB else if a = 1 then 0xFF else 0⟩

/-- Memory image holding 42 at address 0x00FF and 0 everywhere else. -/
def memFF42 : Memory := ⟨fun a => if a = 0xFF then 42 else 0⟩

/-- Memory image beginning with the load-block byte 0x5F. -/
def mem5F : Memory := ⟨fun a => if a = 0 then 0x5F else 0⟩

/-- Memory image beginning with the load-block byte 0x41. -/
def mem41 : Memory := ⟨fun a => if a = 0 then 0x41 else 0⟩

/-- Register file with the zero flag set. -/
def rZ : Emulator.Registers := { r0 with f := 0x80 }

/-- Register file with a nonzero program counter and the zero flag clear. -/
def rJ : Emulator.Registers := { r0 with pc := 10 }

/-- Register file with HL at its maximal value 0xFFFF. -/
def rHL : Emulator.Registers := { r0 with h := 0xFF, l := 0xFF }

/-! ## Helper lemmas -/

theorem lor_low_eq_add (h l : Nat) (hl : l < 256) : (h <<< 8) ||| l = 256 * h + l := by
  have hl2 : l < 2 ^ 8 := by simpa using hl
  calc h <<< 8 ||| l = 2 ^ 8 * h ||| l := by rw [Nat.shiftLeft_eq, Nat.mul_comm]
    _ = 2 ^ 8 * h + l := (Nat.mul_add_lt_is_or hl2 h).symm
    _ = 256 * h + l := by norm_num

theorem hl_lt_of_wf (r : Emulator.Registers) (hh : r.h < 256) (hl : r.l < 256) :
    r.hl < 65536 := by
  unfold Emulator.Registers.hl
  rw [lor_low_eq_add _ _ hl]
  omega

theorem set_hl_hl (r : Emulator.Registers) (v : Nat) (hv : v < 65536) :
    (r.set_hl v).hl = v := by
  unfold Emulator.Registers.set_hl Emulator.Registers.hl
  have h1 : v >>> 8 = v / 256 := by
    rw [Nat.shiftRight_eq_div_pow]
  have h2 : v &&& 0xFF = v % 256 := by
    have h3 := Nat.and_pow_two_sub_one_eq_mod v 8
    norm_num at h3
    exact h3
  simp only [h1, h2]
  have h4 : v / 256 < 256 := by omega
  rw [Nat.mod_eq_of_lt h4, lor_low_eq_add _ _ (Nat.mod_lt _ (by norm_num))]
  omega

theorem fetch_register8_lt (reg : Register8) (r : Emulator.Registers)
    (hWf : r.Wf) : Emulator.fetch_register8 reg r < 256 := by
  obtain ⟨h1, h2, h3, h4, h5, h6, h7, h8, _, _⟩ := hWf
  cases reg <;> simp [Emulator.fetch_register8] <;> omega

theorem decode_extended_not_ld (b : Nat) (op : Decoder.Opcode)
    (h : Decoder.decode_extended b = .ok op) (s1 s2 : Slot) : op ≠ .Ld s1 s2 := by
  intro hop
  subst hop
  unfold Decoder.decode_extended at h
  split_ifs at h <;> simp_all

theorem mapping_slotOk (i : Nat) : slotOk (mapping i) := by
  unfold mapping
  split <;> decide

/-! ## Claim theorems -/

/-- C1: the decoder is claimed to advance the cursor by exactly the size of
the decoded instruction, so decoding `[0xCB, 0x7C]` should yield
`ComplBit(7, H)` with the cursor advanced by 2 and `[0xCB, 0xFF]` should fail
with `UnknownExtendedOpcode(0xFF)`. The cursor-based decoder of decoder.rs
returns `ComplBit(7, H)` but leaves the cursor at 1 (only the prefix byte is
consumed); the iterator-based decoder of main.rs consumes both bytes. -/
theorem C1_extended_decode_cursor :
    Decoder.decode memCB7C 0 = .ok (.ComplBit 7 .H, 1) ∧
    Decoder.decode memCBFF 0 = .error (.UnknownExtendedOpcode 0xFF) ∧
    Main.decode [0xCB, 0x7C] = .ok (.ComplBit 7 .H, []) := by
  refine ⟨rfl, rfl, rfl⟩

/-- C2: fetching through an `Addr8(n)` slot is claimed to read memory address
`0xFF00 + n`. In the source, `fetch_value` computes `(index + 0xFF) as u16`
(an 8-bit addition of 0xFF), so for n = 0 it reads address 0x00FF, not
0xFF00, while the write path of `set_value` correctly stores through
`0xFF00 + n`. -/
theorem C2_addr8_fetch_bug :
    Emulator.fetch_value (.Addr8 0) r0 memFF42 = some 42 ∧
    memFF42.get 0xFF00 = 0 ∧
    (Emulator.set_value (.Addr8 0) r0 memFF42 7).2.1.get 0xFF00 = 7 ∧
    (Emulator.set_value (.Addr8 0) r0 memFF42 7).2.2 = .ok := by
  refine ⟨by decide, by decide, by decide, by decide⟩

/-- C3 counterexample: a buffer of exactly 65536 bytes is not larger than the
64 KiB address space, yet `Memory::from_raw` rejects it with `DataTooLarge`
(the source condition is `len > 0xFFFF`, i.e. `len >= 65536`). -/
theorem C3_counterexample :
    Memory.from_raw (List.replicate 65536 0) = .error .DataTooLarge ∧
    ¬ (List.replicate 65536 (0 : Nat)).length > 65536 := by
  constructor
  · unfold Memory.from_raw
    rw [List.length_replicate]
    rw [if_pos (by decide : (65536 : Nat) > 65535)]
  · rw [List.length_replicate]
    decide

/-- C3 (amended): `Memory::from_raw` fails with `DataTooLarge` exactly when
the buffer length exceeds 0xFFFF (so a buffer of exactly 65536 bytes is
rejected); on success the buffer occupies the low addresses and every
remaining address holds 0. -/
theorem C3_from_raw_bound (bytes : List Nat) :
    (Memory.from_raw bytes = .error .DataTooLarge ↔ 0xFFFF < bytes.length) ∧
    (∀ mem, Memory.from_raw bytes = .ok mem →
      (∀ a, a < bytes.length → mem.get a = bytes.getD a 0) ∧
      (∀ a, bytes.length ≤ a → mem.get a = 0)) := by
  unfold Memory.from_raw
  by_cases hlen : 0xFFFF < bytes.length
  · rw [if_pos hlen]
    refine ⟨by simpa using hlen, ?_⟩
    intro mem hmem
    cases hmem
  · rw [if_neg hlen]
    refine ⟨by simpa using hlen, ?_⟩
    intro mem hmem
    cases hmem
    constructor
    · intro a ha
      simp [Memory.get, ha]
    · intro a ha
      have hna : ¬ a < bytes.length := by omega
      simp [Memory.get, hna]

/-- C3 witness: a 70000-byte buffer is rejected. -/
theorem C3_from_raw_bound_witness :
    Memory.from_raw (List.replicate 70000 (1 : Nat)) = .error .DataTooLarge :=
  (C3_from_raw_bound _).1.mpr (by rw [List.length_replicate]; decide)

/-- C4: executing `Ld(dst, src)` with `dst` or `src` equal to `Register8::F`
or `Register16::AF` fails with a typed error, and the register file and the
memory are returned exactly as they were (the legality checks run before any
value is read or written). -/
theorem C4_ld_illegal (dst src : Slot) (r : Emulator.Registers) (m : Memory)
    (h : dst = Slot.Register8 .F ∨ dst = Slot.Register16 .AF ∨
         src = Slot.Register8 .F ∨ src = Slot.Register16 .AF) :
    ∃ e, Emulator.execute (.Ld dst src) r m = (r, m, .err e) := by
  simp only [Emulator.execute]
  split_ifs with h1 h2 h3 h4
  · exact ⟨_, rfl⟩
  · exact ⟨_, rfl⟩
  · exact ⟨_, rfl⟩
  · exact ⟨_, rfl⟩
  · rcases h with h | h | h | h
    · exact absurd h h3
    · exact absurd h h4
    · exact absurd h h1
    · exact absurd h h2

/-- C4 witness: `Ld(F, A)` on the default state fails and leaves the state
untouched. -/
theorem C4_ld_illegal_witness :
    ∃ e, Emulator.execute (.Ld (Slot.Register8 .F) (Slot.Register8 .A)) r0 m0 =
      (r0, m0, .err e) :=
  C4_ld_illegal _ _ r0 m0 (Or.inl rfl)

/-- C5: every opcode byte b in [0x40, 0x80) other than 0x76 decodes to
`Ld(mapping[(b-0x40)>>3], mapping[(b-0x40)&7])` over the operand table
[B, C, D, E, H, L, (HL), A], consuming exactly one byte, and 0x76 decodes to
`Halt`. -/
theorem C5_ld_block (m : Memory) (pc : Nat) :
    (∀ b, m.get pc = b → 0x40 ≤ b → b < 0x80 → b ≠ 0x76 →
      Decoder.decode m pc =
        .ok (.Ld (mapping ((b - 0x40) >>> 3)) (mapping ((b - 0x40) &&& 0x7)), pc + 1)) ∧
    (m.get pc = 0x76 → Decoder.decode m pc = .ok (.Halt, pc + 1)) := by
  constructor
  · intro b hb h1 h2 h3
    simp only [Decoder.decode]
    rw [hb]
    rw [if_neg (by omega : ¬ b = 0xcb)]
    rw [if_pos (⟨h1, h2⟩ : 0x40 ≤ b ∧ b < 0x80)]
    rw [if_neg h3]
  · intro hb
    simp only [Decoder.decode]
    rw [hb]
    rfl

/-- C5 witness: byte 0x5F decodes to `Ld(E, A)` with the cursor advanced by
one byte. -/
theorem C5_ld_block_witness :
    Decoder.decode mem5F 0 =
      .ok (.Ld (mapping ((0x5F - 0x40) >>> 3)) (mapping ((0x5F - 0x40) &&& 0x7)), 1) :=
  (C5_ld_block mem5F 0).1 0x5F rfl (by decide) (by decide) (by decide)

/-- C6 counterexample: with the zero flag set, executing `JumpRZMemOffset(1)`
does not succeed and does not move the program counter; it falls into the
executor's unknown-opcode branch. -/
theorem C6_counterexample :
    rZ.flag_zero = true ∧
    Emulator.execute (.JumpRZMemOffset 1) rZ m0 =
      (rZ, m0, .err (.UnknownOpcode (.JumpRZMemOffset 1))) ∧
    (Emulator.execute (.JumpRZMemOffset 1) rZ m0).2.2 ≠ .ok := by
  refine ⟨rfl, rfl, by decide⟩

/-- C6 (amended): `JumpRNZMemOffset(d)` adds the signed displacement to PC
(with 16-bit wrap-around) when the zero flag is clear and leaves the state
unchanged when it is set; `JumpRZMemOffset(d)` is decoded but has no executor
arm, so it always fails with the unknown-opcode error, state unchanged. -/
theorem C6_conditional_jumps (r : Emulator.Registers) (m : Memory) (d : Int)
    (_hlo : -128 ≤ d) (_hhi : d < 128) :
    (r.flag_zero = false →
      Emulator.execute (.JumpRNZMemOffset d) r m =
        ({ r with pc := (((r.pc : Int) + d) % 65536).toNat }, m, .ok)) ∧
    (r.flag_zero = true →
      Emulator.execute (.JumpRNZMemOffset d) r m = (r, m, .ok)) ∧
    Emulator.execute (.JumpRZMemOffset d) r m =
      (r, m, .err (.UnknownOpcode (.JumpRZMemOffset d))) := by
  refine ⟨fun hf => ?_, fun hf => ?_, rfl⟩
  · simp [Emulator.execute, hf]
  · simp [Emulator.execute, hf]

/-- C6 witness: with the flag clear, a displacement of -3 from PC = 10 lands
on PC = 7. -/
theorem C6_conditional_jumps_witness :
    Emulator.execute (.JumpRNZMemOffset (-3)) rJ m0 =
      ({ rJ with pc := (((rJ.pc : Int) + (-3)) % 65536).toNat }, m0, .ok) :=
  (C6_conditional_jumps rJ m0 (-3) (by decide) (by decide)).1 rfl

/-- C7: `LdInc(reg)` (resp. `LdDec(reg)`) writes the value of the named 8-bit
register to the memory cell addressed by HL, then sets HL to HL + 1
(resp. HL - 1) with 16-bit wrap-around, succeeding for every starting HL
(including 0xFFFF for LdInc and 0 for LdDec); both the memory write and the
HL update happen within the single call, and no other register changes. -/
theorem C7_ld_inc_dec (r : Emulator.Registers) (m : Memory) (reg : Register8)
    (hWf : r.Wf) :
    ((Emulator.execute (.LdInc reg) r m).2.2 = .ok ∧
     (Emulator.execute (.LdInc reg) r m).1.hl = (r.hl + 1) % 65536 ∧
     (∀ x, (Emulator.execute (.LdInc reg) r m).2.1.get x =
        if x = r.hl then Emulator.fetch_register8 reg r else m.get x) ∧
     (Emulator.execute (.LdInc reg) r m).1.a = r.a ∧
     (Emulator.execute (.LdInc reg) r m).1.b = r.b ∧
     (Emulator.execute (.LdInc reg) r m).1.c = r.c ∧
     (Emulator.execute (.LdInc reg) r m).1.d = r.d ∧
     (Emulator.execute (.LdInc reg) r m).1.e = r.e ∧
     (Emulator.execute (.LdInc reg) r m).1.f = r.f ∧
     (Emulator.execute (.LdInc reg) r m).1.pc = r.pc ∧
     (Emulator.execute (.LdInc reg) r m).1.sp = r.sp) ∧
    ((Emulator.execute (.LdDec reg) r m).2.2 = .ok ∧
     (Emulator.execute (.LdDec reg) r m).1.hl = (r.hl + 0xFFFF) % 65536 ∧
     (∀ x, (Emulator.execute (.LdDec reg) r m).2.1.get x =
        if x = r.hl then Emulator.fetch_register8 reg r else m.get x) ∧
     (Emulator.execute (.LdDec reg) r m).1.a = r.a ∧
     (Emulator.execute (.LdDec reg) r m).1.b = r.b ∧
     (Emulator.execute (.LdDec reg) r m).1.c = r.c ∧
     (Emulator.execute (.LdDec reg) r m).1.d = r.d ∧
     (Emulator.execute (.LdDec reg) r m).1.e = r.e ∧
     (Emulator.execute (.LdDec reg) r m).1.f = r.f ∧
     (Emulator.execute (.LdDec reg) r m).1.pc = r.pc ∧
     (Emulator.execute (.LdDec reg) r m).1.sp = r.sp) := by
  have hv : Emulator.fetch_register8 reg r < 256 := fetch_register8_lt reg r hWf
  have hstep_inc : Emulator.execute (.LdInc reg) r m =
      (r.set_hl ((r.hl + 1) % 65536),
       m.set r.hl (Emulator.fetch_register8 reg r % 256), .ok) := by
    simp [Emulator.execute, Emulator.fetch_value, Emulator.set_value]
  have hstep_dec : Emulator.execute (.LdDec reg) r m =
      (r.set_hl ((r.hl + 0xFFFF) % 65536),
       m.set r.hl (Emulator.fetch_register8 reg r % 256), .ok) := by
    simp [Emulator.execute, Emulator.fetch_value, Emulator.set_value]
  rw [hstep_inc, hstep_dec]
  have hmem : ∀ x, (m.set r.hl (Emulator.fetch_register8 reg r % 256)).get x =
      if x = r.hl then Emulator.fetch_register8 reg r else m.get x := by
    intro x
    simp only [Memory.get, Memory.set]
    rw [Nat.mod_eq_of_lt hv]
  refine ⟨⟨rfl, ?_, hmem, rfl, rfl, rfl, rfl, rfl, rfl, rfl, rfl⟩,
          ⟨rfl, ?_, hmem, rfl, rfl, rfl, rfl, rfl, rfl, rfl, rfl⟩⟩
  · exact set_hl_hl r _ (Nat.mod_lt _ (by norm_num))
  · exact set_hl_hl r _ (Nat.mod_lt _ (by norm_num))

/-- C7 witness: `LdInc(A)` with HL = 0xFFFF succeeds, writes A to 0xFFFF and
wraps HL to 0. -/
theorem C7_ld_inc_dec_witness :
    (Emulator.execute (.LdInc .A) rHL m0).2.2 = .ok ∧
    (Emulator.execute (.LdInc .A) rHL m0).1.hl = (rHL.hl + 1) % 65536 ∧
    (Emulator.execute (.LdInc .A) rHL m0).2.1.get rHL.hl =
      Emulator.fetch_register8 .A rHL := by
  refine ⟨(C7_ld_inc_dec rHL m0 .A (by decide)).1.1,
          (C7_ld_inc_dec rHL m0 .A (by decide)).1.2.1, ?_⟩
  have h := (C7_ld_inc_dec rHL m0 .A (by decide)).1.2.2.1 rHL.hl
  simpa using h

/-- C8: parsing a Data8 or Addr8 slot consumes exactly one byte and fails
with EndOfStream exactly on the empty stream; parsing a Data16 or Addr16
slot consumes two bytes little-endian (first byte least significant) and
fails with EndOfStream exactly when fewer than two bytes remain; decoding
the truncated stream [0x01, 0x34] fails with EndOfStream. -/
theorem C8_slot_parsers (l : List Nat) :
    (Slot.parse_d8 l = .error .EndOfStream ↔ l = []) ∧
    (∀ b rest, l = b :: rest → Slot.parse_d8 l = .ok (.Data8 b, rest)) ∧
    (Slot.parse_a8 l = .error .EndOfStream ↔ l = []) ∧
    (∀ b rest, l = b :: rest → Slot.parse_a8 l = .ok (.Addr8 b, rest)) ∧
    (Slot.parse_d16 l = .error .EndOfStream ↔ l.length < 2) ∧
    (∀ b0 b1 rest, l = b0 :: b1 :: rest →
      Slot.parse_d16 l = .ok (.Data16 (b0 + 256 * b1), rest)) ∧
    (Slot.parse_a16 l = .error .EndOfStream ↔ l.length < 2) ∧
    (∀ b0 b1 rest, l = b0 :: b1 :: rest →
      Slot.parse_a16 l = .ok (.Addr16 (b0 + 256 * b1), rest)) ∧
    Main.decode [0x01, 0x34] = .error .EndOfStream := by
  refine ⟨?_, ?_, ?_, ?_, ?_, ?_, ?_, ?_, rfl⟩ <;>
    rcases l with _ | ⟨b0, _ | ⟨b1, rest⟩⟩ <;>
      simp [Slot.parse_d8, Slot.parse_a8, Slot.parse_d16, Slot.parse_a16,
            decode_u8, decode_u16, Except.map]

/-- C8 witness: parsing a Data16 slot from [0x34, 0x12] yields the
little-endian value 0x1234 and consumes both bytes. -/
theorem C8_slot_parsers_witness :
    Slot.parse_d16 [0x34, 0x12] = .ok (.Data16 (0x34 + 256 * 0x12), []) :=
  (C8_slot_parsers [0x34, 0x12]).2.2.2.2.2.1 0x34 0x12 [] rfl

set_option maxHeartbeats 4000000 in
/-- C9: whenever the cursor-based decoder of decoder.rs succeeds with a
`Ld(dst, src)` opcode, neither operand is `Register8::F` or `Register16::AF`
(nor a dead G/FG variant), so the load-legality error branch of the executor
is unreachable for decoder output. -/
theorem C9_decoder_ld_legal (m : Memory) (pc : Nat) (dst src : Slot) (pc2 : Nat)
    (h : Decoder.decode m pc = .ok (.Ld dst src, pc2)) :
    slotOk dst ∧ slotOk src := by
  simp only [Decoder.decode] at h
  by_cases e0 : m.get pc = 0xcb
  · rw [if_pos e0] at h
    rcases hde : Decoder.decode_extended (m.get (pc + 1)) with e | op <;>
      rw [hde] at h
    · exact absurd h (by simp)
    · simp only [Except.ok.injEq, Prod.mk.injEq] at h
      exact absurd h.1 (decode_extended_not_ld _ _ hde dst src)
  rw [if_neg e0] at h
  by_cases e1 : 0x40 ≤ m.get pc ∧ m.get pc < 0x80
  · rw [if_pos e1] at h
    by_cases e76 : m.get pc = 0x76
    · rw [if_pos e76] at h
      exact absurd h (by simp)
    rw [if_neg e76] at h
    simp only [Except.ok.injEq, Prod.mk.injEq, Decoder.Opcode.Ld.injEq] at h
    obtain ⟨⟨h1, h2⟩, _⟩ := h
    subst h1
    subst h2
    exact ⟨mapping_slotOk _, mapping_slotOk _⟩
  rw [if_neg e1] at h
  by_cases v0 : m.get pc = 0x00
  · rw [if_pos v0] at h
    exact absurd h (by simp)
  rw [if_neg v0] at h
  by_cases v1 : m.get pc = 0x01
  · rw [if_pos v1] at h
    simp only [Decoder.parse_d16, Decoder.parse_a16, Decoder.parse_d8,
      Decoder.parse_a8, Except.ok.injEq, Prod.mk.injEq,
      Decoder.Opcode.Ld.injEq] at h
    obtain ⟨⟨h1, h2⟩, _⟩ := h
    subst h1
    subst h2
    exact ⟨by simp [slotOk, Slot.r8, Slot.r16, Slot.addr],
           by simp [slotOk, Slot.r8, Slot.r16, Slot.addr]⟩
  rw [if_neg v1] at h
  by_cases v2 : m.get pc = 0x02
  · rw [if_pos v2] at h
    simp only [Decoder.parse_d16, Decoder.parse_a16, Decoder.parse_d8,
      Decoder.parse_a8, Except.ok.injEq, Prod.mk.injEq,
      Decoder.Opcode.Ld.injEq] at h
    obtain ⟨⟨h1, h2⟩, _⟩ := h
    subst h1
    subst h2
    exact ⟨by simp [slotOk, Slot.r8, Slot.r16, Slot.addr],
           by simp [slotOk, Slot.r8, Slot.r16, Slot.addr]⟩
  rw [if_neg v2] at h
  by_cases v3 : m.get pc = 0x03
  · rw [if_pos v3] at h
    exact absurd h (by simp)
  rw [if_neg v3] at h
  by_cases v4 : m.get pc = 0x04
  · rw [if_pos v4] at h
    exact absurd h (by simp)
  rw [if_neg v4] at h
  by_cases v5 : m.get pc = 0x05
  · rw [if_pos v5] at h
    exact absurd h (by simp)
  rw [if_neg v5] at h
  by_cases v6 : m.get pc = 0x06
  · rw [if_pos v6] at h
    simp only [Decoder.parse_d16, Decoder.parse_a16, Decoder.parse_d8,
      Decoder.parse_a8, Except.ok.injEq, Prod.mk.injEq,
      Decoder.Opcode.Ld.injEq] at h
    obtain ⟨⟨h1, h2⟩, _⟩ := h
    subst h1
    subst h2
    exact ⟨by simp [slotOk, Slot.r8, Slot.r16, Slot.addr],
           by simp [slotOk, Slot.r8, Slot.r16, Slot.addr]⟩
  rw [if_neg v6] at h
  by_cases v7 : m.get pc = 0x0c
  · rw [if_pos v7] at h
    exact absurd h (by simp)
  rw [if_neg v7] at h
  by_cases v8 : m.get pc = 0x0d
  · rw [if_pos v8] at h
    exact absurd h (by simp)
  rw [if_neg v8] at h
  by_cases v9 : m.get pc = 0x0e
  · rw [if_pos v9] at h
    simp only [Decoder.parse_d16, Decoder.parse_a16, Decoder.parse_d8,
      Decoder.parse_a8, Except.ok.injEq, Prod.mk.injEq,
      Decoder.Opcode.Ld.injEq] at h
    obtain ⟨⟨h1, h2⟩, _⟩ := h
    subst h1
    subst h2
    exact ⟨by simp [slotOk, Slot.r8, Slot.r16, Slot.addr],
           by simp [slotOk, Slot.r8, Slot.r16, Slot.addr]⟩
  rw [if_neg v9] at h
  by_cases v10 : m.get pc = 0x11
  · rw [if_pos v10] at h
    simp only [Decoder.parse_d16, Decoder.parse_a16, Decoder.parse_d8,
      Decoder.parse_a8, Except.ok.injEq, Prod.mk.injEq,
      Decoder.Opcode.Ld.injEq] at h
    obtain ⟨⟨h1, h2⟩, _⟩ := h
    subst h1
    subst h2
    exact ⟨by simp [slotOk, Slot.r8, Slot.r16, Slot.addr],
           by simp [slotOk, Slot.r8, Slot.r16, Slot.addr]⟩
  rw [if_neg v10] at h
  by_cases v11 : m.get pc = 0x13
  · rw [if_pos v11] at h
    exact absurd h (by simp)
  rw [if_neg v11] at h
  by_cases v12 : m.get pc = 0x14
  · rw [if_pos v12] at h
    exact absurd h (by simp)
  rw [if_neg v12] at h
  by_cases v13 : m.get pc = 0x15
  · rw [if_pos v13] at h
    exact absurd h (by simp)
  rw [if_neg v13] at h
  by_cases v14 : m.get pc = 0x16
  · rw [if_pos v14] at h
    simp only [Decoder.parse_d16, Decoder.parse_a16, Decoder.parse_d8,
      Decoder.parse_a8, Except.ok.injEq, Prod.mk.injEq,
      Decoder.Opcode.Ld.injEq] at h
    obtain ⟨⟨h1, h2⟩, _⟩ := h
    subst h1
    subst h2
    exact ⟨by simp [slotOk, Slot.r8, Slot.r16, Slot.addr],
           by simp [slotOk, Slot.r8, Slot.r16, Slot.addr]⟩
  rw [if_neg v14] at h
  by_cases v15 : m.get pc = 0x17
  · rw [if_pos v15] at h
    exact absurd h (by simp)
  rw [if_neg v15] at h
  by_cases v16 : m.get pc = 0x18
  · rw [if_pos v16] at h
    exact absurd h (by simp)
  rw [if_neg v16] at h
  by_cases v17 : m.get pc = 0x1a
  · rw [if_pos v17] at h
    simp only [Decoder.parse_d16, Decoder.parse_a16, Decoder.parse_d8,
      Decoder.parse_a8, Except.ok.injEq, Prod.mk.injEq,
      Decoder.Opcode.Ld.injEq] at h
    obtain ⟨⟨h1, h2⟩, _⟩ := h
    subst h1
    subst h2
    exact ⟨by simp [slotOk, Slot.r8, Slot.r16, Slot.addr],
           by simp [slotOk, Slot.r8, Slot.r16, Slot.addr]⟩
  rw [if_neg v17] at h
  by_cases v18 : m.get pc = 0x1b
  · rw [if_pos v18] at h
    exact absurd h (by simp)
  rw [if_neg v18] at h
  by_cases v19 : m.get pc = 0x1c
  · rw [if_pos v19] at h
    exact absurd h (by simp)
  rw [if_neg v19] at h
  by_cases v20 : m.get pc = 0x1d
  · rw [if_pos v20] at h
    exact absurd h (by simp)
  rw [if_neg v20] at h
  by_cases v21 : m.get pc = 0x1e
  · rw [if_pos v21] at h
    simp only [Decoder.parse_d16, Decoder.parse_a16, Decoder.parse_d8,
      Decoder.parse_a8, Except.ok.injEq, Prod.mk.injEq,
      Decoder.Opcode.Ld.injEq] at h
    obtain ⟨⟨h1, h2⟩, _⟩ := h
    subst h1
    subst h2
    exact ⟨by simp [slotOk, Slot.r8, Slot.r16, Slot.addr],
           by simp [slotOk, Slot.r8, Slot.r16, Slot.addr]⟩
  rw [if_neg v21] at h
  by_cases v22 : m.get pc = 0x20
  · rw [if_pos v22] at h
    exact absurd h (by simp)
  rw [if_neg v22] at h
  by_cases v23 : m.get pc = 0x21
  · rw [if_pos v23] at h
    simp only [Decoder.parse_d16, Decoder.parse_a16, Decoder.parse_d8,
      Decoder.parse_a8, Except.ok.injEq, Prod.mk.injEq,
      Decoder.Opcode.Ld.injEq] at h
    obtain ⟨⟨h1, h2⟩, _⟩ := h
    subst h1
    subst h2
    exact ⟨by simp [slotOk, Slot.r8, Slot.r16, Slot.addr],
           by simp [slotOk, Slot.r8, Slot.r16, Slot.addr]⟩
  rw [if_neg v23] at h
  by_cases v24 : m.get pc = 0x22
  · rw [if_pos v24] at h
    exact absurd h (by simp)
  rw [if_neg v24] at h
  by_cases v25 : m.get pc = 0x23
  · rw [if_pos v25] at h
    exact absurd h (by simp)
  rw [if_neg v25] at h
  by_cases v26 : m.get pc = 0x24
  · rw [if_pos v26] at h
    exact absurd h (by simp)
  rw [if_neg v26] at h
  by_cases v27 : m.get pc = 0x25
  · rw [if_pos v27] at h
    exact absurd h (by simp)
  rw [if_neg v27] at h
  by_cases v28 : m.get pc = 0x28
  · rw [if_pos v28] at h
    exact absurd h (by simp)
  rw [if_neg v28] at h
  by_cases v29 : m.get pc = 0x2e
  · rw [if_pos v29] at h
    simp only [Decoder.parse_d16, Decoder.parse_a16, Decoder.parse_d8,
      Decoder.parse_a8, Except.ok.injEq, Prod.mk.injEq,
      Decoder.Opcode.Ld.injEq] at h
    obtain ⟨⟨h1, h2⟩, _⟩ := h
    subst h1
    subst h2
    exact ⟨by simp [slotOk, Slot.r8, Slot.r16, Slot.addr],
           by simp [slotOk, Slot.r8, Slot.r16, Slot.addr]⟩
  rw [if_neg v29] at h
  by_cases v30 : m.get pc = 0x31
  · rw [if_pos v30] at h
    simp only [Decoder.parse_d16, Decoder.parse_a16, Decoder.parse_d8,
      Decoder.parse_a8, Except.ok.injEq, Prod.mk.injEq,
      Decoder.Opcode.Ld.injEq] at h
    obtain ⟨⟨h1, h2⟩, _⟩ := h
    subst h1
    subst h2
    exact ⟨by simp [slotOk, Slot.r8, Slot.r16, Slot.addr],
           by simp [slotOk, Slot.r8, Slot.r16, Slot.addr]⟩
  rw [if_neg v30] at h
  by_cases v31 : m.get pc = 0x32
  · rw [if_pos v31] at h
    exact absurd h (by simp)
  rw [if_neg v31] at h
  by_cases v32 : m.get pc = 0x34
  · rw [if_pos v32] at h
    exact absurd h (by simp)
  rw [if_neg v32] at h
  by_cases v33 : m.get pc = 0x35
  · rw [if_pos v33] at h
    exact absurd h (by simp)
  rw [if_neg v33] at h
  by_cases v34 : m.get pc = 0x3d
  · rw [if_pos v34] at h
    exact absurd h (by simp)
  rw [if_neg v34] at h
  by_cases v35 : m.get pc = 0x3e
  · rw [if_pos v35] at h
    simp only [Decoder.parse_d16, Decoder.parse_a16, Decoder.parse_d8,
      Decoder.parse_a8, Except.ok.injEq, Prod.mk.injEq,
      Decoder.Opcode.Ld.injEq] at h
    obtain ⟨⟨h1, h2⟩, _⟩ := h
    subst h1
    subst h2
    exact ⟨by simp [slotOk, Slot.r8, Slot.r16, Slot.addr],
           by simp [slotOk, Slot.r8, Slot.r16, Slot.addr]⟩
  rw [if_neg v35] at h
  by_cases v36 : m.get pc = 0x90
  · rw [if_pos v36] at h
    exact absurd h (by simp)
  rw [if_neg v36] at h
  by_cases v37 : m.get pc = 0x91
  · rw [if_pos v37] at h
    exact absurd h (by simp)
  rw [if_neg v37] at h
  by_cases v38 : m.get pc = 0x92
  · rw [if_pos v38] at h
    exact absurd h (by simp)
  rw [if_neg v38] at h
  by_cases v39 : m.get pc = 0x93
  · rw [if_pos v39] at h
    exact absurd h (by simp)
  rw [if_neg v39] at h
  by_cases v40 : m.get pc = 0x94
  · rw [if_pos v40] at h
    exact absurd h (by simp)
  rw [if_neg v40] at h
  by_cases v41 : m.get pc = 0x95
  · rw [if_pos v41] at h
    exact absurd h (by simp)
  rw [if_neg v41] at h
  by_cases v42 : m.get pc = 0x96
  · rw [if_pos v42] at h
    exact absurd h (by simp)
  rw [if_neg v42] at h
  by_cases v43 : m.get pc = 0x97
  · rw [if_pos v43] at h
    exact absurd h (by simp)
  rw [if_neg v43] at h
  by_cases v44 : m.get pc = 0xaf
  · rw [if_pos v44] at h
    exact absurd h (by simp)
  rw [if_neg v44] at h
  by_cases v45 : m.get pc = 0xc1
  · rw [if_pos v45] at h
    exact absurd h (by simp)
  rw [if_neg v45] at h
  by_cases v46 : m.get pc = 0xc5
  · rw [if_pos v46] at h
    exact absurd h (by simp)
  rw [if_neg v46] at h
  by_cases v47 : m.get pc = 0xc9
  · rw [if_pos v47] at h
    exact absurd h (by simp)
  rw [if_neg v47] at h
  by_cases v48 : m.get pc = 0xcd
  · rw [if_pos v48] at h
    exact absurd h (by simp)
  rw [if_neg v48] at h
  by_cases v49 : m.get pc = 0xe0
  · rw [if_pos v49] at h
    simp only [Decoder.parse_d16, Decoder.parse_a16, Decoder.parse_d8,
      Decoder.parse_a8, Except.ok.injEq, Prod.mk.injEq,
      Decoder.Opcode.Ld.injEq] at h
    obtain ⟨⟨h1, h2⟩, _⟩ := h
    subst h1
    subst h2
    exact ⟨by simp [slotOk, Slot.r8, Slot.r16, Slot.addr],
           by simp [slotOk, Slot.r8, Slot.r16, Slot.addr]⟩
  rw [if_neg v49] at h
  by_cases v50 : m.get pc = 0xe2
  · rw [if_pos v50] at h
    simp only [Decoder.parse_d16, Decoder.parse_a16, Decoder.parse_d8,
      Decoder.parse_a8, Except.ok.injEq, Prod.mk.injEq,
      Decoder.Opcode.Ld.injEq] at h
    obtain ⟨⟨h1, h2⟩, _⟩ := h
    subst h1
    subst h2
    exact ⟨by simp [slotOk, Slot.r8, Slot.r16, Slot.addr],
           by simp [slotOk, Slot.r8, Slot.r16, Slot.addr]⟩
  rw [if_neg v50] at h
  by_cases v51 : m.get pc = 0xea
  · rw [if_pos v51] at h
    simp only [Decoder.parse_d16, Decoder.parse_a16, Decoder.parse_d8,
      Decoder.parse_a8, Except.ok.injEq, Prod.mk.injEq,
      Decoder.Opcode.Ld.injEq] at h
    obtain ⟨⟨h1, h2⟩, _⟩ := h
    subst h1
    subst h2
    exact ⟨by simp [slotOk, Slot.r8, Slot.r16, Slot.addr],
           by simp [slotOk, Slot.r8, Slot.r16, Slot.addr]⟩
  rw [if_neg v51] at h
  by_cases v52 : m.get pc = 0xf0
  · rw [if_pos v52] at h
    simp only [Decoder.parse_d16, Decoder.parse_a16, Decoder.parse_d8,
      Decoder.parse_a8, Except.ok.injEq, Prod.mk.injEq,
      Decoder.Opcode.Ld.injEq] at h
    obtain ⟨⟨h1, h2⟩, _⟩ := h
    subst h1
    subst h2
    exact ⟨by simp [slotOk, Slot.r8, Slot.r16, Slot.addr],
           by simp [slotOk, Slot.r8, Slot.r16, Slot.addr]⟩
  rw [if_neg v52] at h
  by_cases v53 : m.get pc = 0xf1
  · rw [if_pos v53] at h
    exact absurd h (by simp)
  rw [if_neg v53] at h
  by_cases v54 : m.get pc = 0xfe
  · rw [if_pos v54] at h
    exact absurd h (by simp)
  rw [if_neg v54] at h
  exact absurd h (by simp)

/-- C9 witness: byte 0x41 decodes to `Ld(B, C)` and both operands are legal. -/
theorem C9_decoder_ld_legal_witness :
    slotOk (Slot.r8 .B) ∧ slotOk (Slot.r8 .C) :=
  C9_decoder_ld_legal mem41 0 (Slot.r8 .B) (Slot.r8 .C) 1 rfl

/-- C10: `Xor(reg)` replaces A with `A XOR reg` (truncated to a byte) and
leaves the F register, and with it every flag bit, exactly as it was, even
when the result is zero; memory is untouched and the call succeeds. -/
theorem C10_xor_preserves_flags (r : Emulator.Registers) (m : Memory)
    (reg : Register8) :
    Emulator.execute (.Xor reg) r m =
      ({ r with a := (r.a ^^^ Emulator.fetch_register8 reg r) % 256 }, m, .ok) ∧
    (Emulator.execute (.Xor reg) r m).1.f = r.f ∧
    (r.Wf → (Emulator.execute (.Xor reg) r m).1.a =
      r.a ^^^ Emulator.fetch_register8 reg r) := by
  have hstep : Emulator.execute (.Xor reg) r m =
      ({ r with a := (r.a ^^^ Emulator.fetch_register8 reg r) % 256 }, m, .ok) := by
    simp [Emulator.execute, Emulator.set_value]
    rfl
  refine ⟨hstep, by rw [hstep], fun hWf => ?_⟩
  rw [hstep]
  have ha : r.a < 256 := hWf.1
  have hx : r.a ^^^ Emulator.fetch_register8 reg r < 256 := by
    have h1 : r.a < 2 ^ 8 := by simpa using ha
    have h2 : Emulator.fetch_register8 reg r < 2 ^ 8 := by
      simpa using fetch_register8_lt reg r hWf
    simpa using Nat.xor_lt_two_pow h1 h2
  simpa using Nat.mod_eq_of_lt hx

/-- C10 witness: with well-formed registers the accumulator holds the exact
XOR after executing `Xor(B)`. -/
theorem C10_xor_preserves_flags_witness :
    (Emulator.execute (.Xor .B) rZ m0).1.a =
      rZ.a ^^^ Emulator.fetch_register8 .B rZ :=
  (C10_xor_preserves_flags rZ m0 .B).2.2 (by decide)

end GB
